import Mathlib

/-!
Verification of `django_q_signals` (src/src/django_q_signals/__init__.py).

The module exports one decorator, `async_receiver`, which connects a thin
wrapper (`signal_handler`) to one or more Django signals; firing a signal
enqueues a Django Q2 task instead of running the handler inline.  A
generated companion (`async_task_func`, the Task Bridge) is installed on
the handler's module; it reconstructs the sender class, re-fetches the
instance by primary key and restores the kwargs before invoking the
original handler.

The embedding below mirrors that file.  Python dictionaries are modelled
as association lists with (as in Python) at most one entry per key in any
well-formed dict; Python values are the inductive `PyVal`; the Django app
registry and the database are the explicit `World` record; exceptions are
the `Except PyErr` monad; Django's external `apps.get_model` and
`Model.objects.get` primitives are lookups in that record.
-/

namespace DjangoQSignals

/-- A Django model class, identified (as `apps.get_model` does) by its
`_meta.app_label` and lowercase `_meta.model_name`. -/
structure ModelClass where
  app_label : String
  model_name : String
deriving DecidableEq, Repr

/-- A model instance: its class, its primary key and an opaque version tag
standing for the remaining field values (which may differ between the
enqueued snapshot and the row fetched later). -/
structure Inst where
  cls : ModelClass
  pk : Int
  version : Nat
deriving DecidableEq, Repr

/-- Python runtime values as far as this module inspects them.  Signal
kwargs values are of this type.  `frozenset` holds field-name strings,
which is what Django's `update_fields` carries; `signalObj` is the
`signal=` object; `obj` is any other non-serializable object. -/
inductive PyVal where
  | str (s : String)
  | int (n : Int)
  | float (tag : Nat)
  | bool (b : Bool)
  | list (xs : List PyVal)
  | dict (kvs : List (String × PyVal))
  | tuple (xs : List PyVal)
  | none
  | frozenset (elems : List String)
  | modelClass (c : ModelClass)
  | inst (i : Inst)
  | signalObj (id : Nat)
  | obj (id : Nat)

/-- Python's `value is None`. -/
def PyVal.isNone : PyVal → Bool
  | .none => true
  | _ => false

/-- Python's `isinstance(value, str | int | float | bool | list | dict |
tuple | type(None))`, the whitelist in `_serialize_signal_kwargs`.  A
frozenset, a model class, a model instance, a Signal object or any other
object is not an instance of these. -/
def isSerializable : PyVal → Bool
  | .str _ => true
  | .int _ => true
  | .float _ => true
  | .bool _ => true
  | .list _ => true
  | .dict _ => true
  | .tuple _ => true
  | .none => true
  | _ => false

/-- Extract a Python string. -/
def asStr : PyVal → Option String
  | .str s => some s
  | _ => Option.none

/-- Python's `list(value)`: defined on iterables, `TypeError` (here
`Option.none`) otherwise. -/
def pyList : PyVal → Option (List PyVal)
  | .list xs => some xs
  | .tuple xs => some xs
  | .frozenset xs => some (xs.map .str)
  | .str s => some (s.data.map (fun c => .str (String.mk [c])))
  | .dict kvs => some (kvs.map (fun p => .str p.1))
  | _ => Option.none

/-- Python's `frozenset(value)` on the string-element iterables this
module can meet; non-iterables (and, in this model, iterables with
non-string elements) are a `TypeError`. -/
def pyFrozenset : PyVal → Option PyVal
  | .list xs => (xs.mapM asStr).map .frozenset
  | .tuple xs => (xs.mapM asStr).map .frozenset
  | .frozenset xs => some (.frozenset xs)
  | .str s => some (.frozenset (s.data.map (fun c => String.mk [c])))
  | .dict kvs => some (.frozenset (kvs.map (·.1)))
  | _ => Option.none

/-- Signal kwargs: a Python dict, keys to values. -/
abbrev Kwargs := List (String × PyVal)

/-- First entry with the given key, its value (`d[k]` when the key is
present; a well-formed dict has at most one entry per key). -/
def findEntry (kw : Kwargs) (k : String) : Option PyVal :=
  (kw.find? (fun p => p.1 == k)).map (·.2)

/-- Python's `d.get(k)`: the value, or `None` when absent. -/
def lookupKw (kw : Kwargs) (k : String) : PyVal :=
  (findEntry kw k).getD .none

/-- Python's `d[k] = v`: replace the entry when the key is present,
append it otherwise. -/
def setKw (kw : Kwargs) (k : String) (v : PyVal) : Kwargs :=
  if kw.any (fun p => p.1 == k) then
    kw.map (fun p => if p.1 == k then (k, v) else p)
  else
    kw ++ [(k, v)]

/-- The primary-key value as stored into kwargs: the submitted key, or
Python `None`. -/
def pkToPy : Option Int → PyVal
  | some p => .int p
  | Option.none => .none

/-- `_get_model_label`: `f"{model._meta.app_label}.{model._meta.model_name}"
if model else None`. -/
def _get_model_label : Option ModelClass → Option String
  | some m => some (m.app_label ++ "." ++ m.model_name)
  | Option.none => Option.none

/-- `_get_model_label` applied to an instance: its `_meta` is its class's. -/
def _get_instance_label (i : Option Inst) : Option String :=
  _get_model_label (i.map (·.cls))

/-- The `sender` kwarg as the wrapper reads it.  For the model signals this
receiver is connected to, Django supplies the model class, or `None`. -/
def kwargsSender (kw : Kwargs) : Option ModelClass :=
  match lookupKw kw "sender" with
  | .modelClass c => some c
  | _ => Option.none

/-- The `instance` kwarg as the wrapper reads it: a model instance, or
`None` when absent. -/
def kwargsInst (kw : Kwargs) : Option Inst :=
  match lookupKw kw "instance" with
  | .inst i => some i
  | _ => Option.none

/-- The guard `if sender and sender._meta.app_label == "django_q"`. -/
def senderIsDjangoQ : Option ModelClass → Bool
  | some c => c.app_label == "django_q"
  | Option.none => false

/-- `_serialize_signal_kwargs`: drop `signal`, `sender`, `instance`;
convert a non-`None` `update_fields` with `list(value)`; keep any other
value iff its type is in the `isinstance` whitelist.  `Option.none` is the
`TypeError` that `list(value)` raises on a non-iterable. -/
def _serialize_signal_kwargs : Kwargs → Option Kwargs
  | [] => some []
  | (k, v) :: rest =>
    if k = "signal" ∨ k = "sender" ∨ k = "instance" then
      _serialize_signal_kwargs rest
    else if k = "update_fields" ∧ v.isNone = false then
      (pyList v).bind (fun l =>
        (_serialize_signal_kwargs rest).map (fun tail => (k, .list l) :: tail))
    else if isSerializable v then
      (_serialize_signal_kwargs rest).map (fun tail => (k, v) :: tail)
    else
      _serialize_signal_kwargs rest

/-- Python exceptions this module can raise or meet. -/
inductive PyErr where
  | lookupError
  | valueError
  | typeError
deriving DecidableEq, Repr

/-- The positional payload one `async_task` call submits. -/
structure TaskSubmission where
  task_path : String
  sender_label : Option String
  instance_label : Option String
  instance_pk : Option Int
  kwargs : Kwargs

/-- The wrapper `signal_handler` connected to each signal: read sender and
instance from the kwargs, return early for Django Q2's own models,
otherwise serialize and submit one task.  `.ok Option.none` is the early
return without a submission; `.ok (some sub)` is the `async_task` call. -/
def signal_handler (task_path : String) (kwargs : Kwargs) :
    Except PyErr (Option TaskSubmission) :=
  let sender := kwargsSender kwargs
  let inst := kwargsInst kwargs
  if senderIsDjangoQ sender then .ok Option.none
  else
    let sender_label := _get_model_label sender
    let instance_label := _get_instance_label inst
    match _serialize_signal_kwargs kwargs with
    | some serializable_kwargs =>
      .ok (some ⟨task_path, sender_label, instance_label,
        inst.map (·.pk), serializable_kwargs⟩)
    | Option.none => .error .typeError

/-- The world at Task Bridge execution time: the app registry
(`apps.get_model`'s source of truth) and the database rows. -/
structure World where
  registry : List ModelClass
  db : List Inst

/-- Index of the split produced by `label.rsplit(".", 1)`: the characters
before the last dot and those after it; `Option.none` when there is no
dot (so destructuring into two names raises `ValueError`). -/
def rsplitDotList : List Char → Option (List Char × List Char)
  | [] => Option.none
  | c :: rest =>
    match rsplitDotList rest with
    | some (pre, post) => some (c :: pre, post)
    | Option.none => if c = '.' then some ([], rest) else Option.none

/-- `label.rsplit(".", 1)` followed by the two-name destructuring. -/
def rsplitDot (s : String) : Option (String × String) :=
  (rsplitDotList s.data).map (fun p => (String.mk p.1, String.mk p.2))

/-- `app_label, model_name = label.rsplit(".", 1)` followed by
`apps.get_model(app_label, model_name)`; an unknown pair raises
`LookupError`. -/
def resolveModel (w : World) (lbl : String) : Except PyErr ModelClass :=
  match rsplitDot lbl with
  | Option.none => .error .valueError
  | some (app_label, model_name) =>
    match w.registry.find?
        (fun c => decide (c.app_label = app_label ∧ c.model_name = model_name)) with
    | some m => .ok m
    | Option.none => .error .lookupError

/-- `model_class.objects.get(pk=instance_id)`: the first row of that class
with that key; no row (also when the submitted key is null) is
`DoesNotExist`, modelled as `Option.none`. -/
def dbGet (w : World) (c : ModelClass) (pk : Option Int) : Option Inst :=
  match pk with
  | some p => w.db.find? (fun i => decide (i.cls = c ∧ i.pk = p))
  | Option.none => Option.none

/-- Bridge step "reconstruct sender": `None` unless `sender_label` is a
non-empty string, else resolve it. -/
def reconstructSender (w : World) :
    Option String → Except PyErr (Option ModelClass)
  | some lbl =>
    if lbl = "" then .ok Option.none else (resolveModel w lbl).map some
  | Option.none => .ok Option.none

/-- Bridge step "reconstruct instance": resolve the label, fetch by pk;
on `DoesNotExist` pass `None` and record `_instance_pk` in the kwargs. -/
def reconstructInstance (w : World) :
    Option String → Option Int → Kwargs → Except PyErr (Option Inst × Kwargs)
  | some lbl, instance_id, kw =>
    if lbl = "" then .ok (Option.none, kw)
    else
      (resolveModel w lbl).bind (fun model_class =>
        match dbGet w model_class instance_id with
        | some i => .ok (some i, kw)
        | Option.none =>
          .ok (Option.none, setKw kw "_instance_pk" (pkToPy instance_id)))
  | Option.none, _, kw => .ok (Option.none, kw)

/-- Bridge step "reconstruct update_fields back into a frozenset": when
the key is present with a non-`None` value, replace it by
`frozenset(value)`. -/
def reconstruct_update_fields (kw : Kwargs) : Except PyErr Kwargs :=
  match findEntry kw "update_fields" with
  | some v =>
    if v.isNone then .ok kw
    else
      match pyFrozenset v with
      | some fs => .ok (setKw kw "update_fields" fs)
      | Option.none => .error .typeError
  | Option.none => .ok kw

/-- The call the Task Bridge finally makes:
`handler(sender, instance, **signal_kwargs)`. -/
structure HandlerCall where
  sender : Option ModelClass
  inst : Option Inst
  kwargs : Kwargs

/-- The generated Task Bridge `async_task_func`: reconstruct the sender,
reconstruct the instance, restore `update_fields`, then call the original
handler.  Uncaught exceptions (`LookupError`, `ValueError`, `TypeError`)
propagate as the task's failure. -/
def async_task_func (w : World) (sender_label instance_label : Option String)
    (instance_id : Option Int) (signal_kwargs : Kwargs) :
    Except PyErr HandlerCall :=
  (reconstructSender w sender_label).bind (fun sender =>
    (reconstructInstance w instance_label instance_id signal_kwargs).bind
      (fun p =>
        (reconstruct_update_fields p.2).map (fun kw2 =>
          ⟨sender, p.1, kw2⟩)))

/-- A user handler function, identified by its `__module__` and
`__name__` (what `_create_async_task_wrapper` reads from it). -/
structure Func where
  module : String
  name : String
deriving DecidableEq, Repr

/-- `task_name = f"{func.__name__}_task"`. -/
def task_name_of (f : Func) : String := f.name ++ "_task"

/-- `task_path = f"{func.__module__}.{task_name}"`. -/
def task_path_of (f : Func) : String := f.module ++ "." ++ task_name_of f

/-- Module attribute tables: `(module, attribute name)` to the handler
whose generated Task Bridge is installed there. -/
abbrev Modules := List ((String × String) × Func)

/-- `getattr(sys.modules[m], a, None)` restricted to installed bridges. -/
def getModAttr (mods : Modules) (m a : String) : Option Func :=
  (mods.find? (fun e => e.1.1 == m && e.1.2 == a)).map (·.2)

/-- `setattr(sys.modules[m], a, bridge)`: replace or append. -/
def setModAttr (mods : Modules) (m a : String) (f : Func) : Modules :=
  if mods.any (fun e => e.1.1 == m && e.1.2 == a) then
    mods.map (fun e => if e.1.1 == m && e.1.2 == a then ((m, a), f) else e)
  else
    mods ++ [((m, a), f)]

/-- `_create_async_task_wrapper`: derive the task name and path, install
`async_task_func` (identified by the handler it bridges) on the handler's
module, return the path. -/
def _create_async_task_wrapper (mods : Modules) (f : Func) : Modules × String :=
  let task_name := task_name_of f
  let task_path := f.module ++ "." ++ task_name
  (setModAttr mods f.module task_name f, task_path)

/-- The decorator's `signal` argument: one signal, or a list of signals
(signals themselves are opaque ids). -/
inductive SignalArg where
  | single (s : Nat)
  | many (ss : List Nat)

/-- Registration state: module attribute tables plus the dispatcher's
connection list (signal id to the handler whose wrapper is connected).
The dispatcher itself is Django's; connecting appends the receiver to the
signal's list. -/
structure RegState where
  mods : Modules
  conns : List (Nat × Func)

/-- The `isinstance(signal, (list, tuple))` branch of `decorator`:
connect the one wrapper to each signal. -/
def connectAll (sig : SignalArg) (f : Func) (conns : List (Nat × Func)) :
    List (Nat × Func) :=
  match sig with
  | .single s => conns ++ [(s, f)]
  | .many ss => ss.foldl (fun cs s => cs ++ [(s, f)]) conns

/-- The inner `decorator`: create and install the task wrapper, connect
`signal_handler` to the signal(s), return the original function. -/
def decorator (sig : SignalArg) (f : Func) (st : RegState) : RegState × Func :=
  let created := _create_async_task_wrapper st.mods f
  (⟨created.1, connectAll sig f st.conns⟩, f)

/-- Firing signal `s`: Django's dispatcher calls every connected receiver
with the event kwargs; each receiver here is `signal_handler` with the
task path derived from its handler. -/
def fireSignal (conns : List (Nat × Func)) (s : Nat) (kwargs : Kwargs) :
    List (Except PyErr (Option TaskSubmission)) :=
  (conns.filter (fun c => c.1 == s)).map
    (fun c => signal_handler (task_path_of c.2) kwargs)

/-- The task submissions one firing of `s` produces. -/
def submissionsOfFire (conns : List (Nat × Func)) (s : Nat) (kwargs : Kwargs) :
    List TaskSubmission :=
  (fireSignal conns s kwargs).filterMap (fun r =>
    match r with
    | .ok (some sub) => some sub
    | _ => Option.none)

/-! ### Association-list lemmas -/

theorem findEntry_nil (k : String) : findEntry [] k = Option.none := rfl

theorem findEntry_cons_self (k : String) (v : PyVal) (rest : Kwargs) :
    findEntry ((k, v) :: rest) k = some v := by
  simp [findEntry, List.find?_cons]

theorem findEntry_cons_ne (k₀ k : String) (v : PyVal) (rest : Kwargs)
    (h : k ≠ k₀) : findEntry ((k₀, v) :: rest) k = findEntry rest k := by
  simp [findEntry, List.find?_cons, Ne.symm h]

theorem findEntry_mem (kw : Kwargs) (k : String) (v : PyVal)
    (h : findEntry kw k = some v) : (k, v) ∈ kw := by
  induction kw with
  | nil => simp [findEntry] at h
  | cons p rest ih =>
    by_cases hk : p.1 = k
    · have : p = (k, v) := by
        rcases p with ⟨pk, pv⟩
        simp only at hk
        subst hk
        rw [findEntry_cons_self] at h
        cases h
        rfl
      simp [this]
    · rcases p with ⟨pk, pv⟩
      rw [findEntry_cons_ne pk k pv rest (fun hh => hk hh.symm)] at h
      exact List.mem_cons_of_mem _ (ih h)

theorem findEntry_eq_none_of_not_key (kw : Kwargs) (k : String)
    (h : k ∉ kw.map Prod.fst) : findEntry kw k = Option.none := by
  induction kw with
  | nil => rfl
  | cons p rest ih =>
    rcases p with ⟨pk, pv⟩
    simp only [List.map_cons, List.mem_cons, not_or] at h
    rw [findEntry_cons_ne pk k pv rest (fun hh => h.1 hh)]
    exact ih h.2

theorem findEntry_replace_self (kw : Kwargs) (k : String) (v : PyVal)
    (h : kw.any (fun p => p.1 == k) = true) :
    findEntry (kw.map (fun p => if p.1 == k then (k, v) else p)) k = some v := by
  induction kw with
  | nil => simp at h
  | cons p rest ih =>
    rw [List.map_cons]
    by_cases hp : p.1 = k
    · have hfp : (if p.1 == k then (k, v) else p) = (k, v) := by simp [hp]
      rw [hfp]
      exact findEntry_cons_self k v _
    · have hrest : rest.any (fun p => p.1 == k) = true := by
        rw [List.any_cons] at h
        rcases Bool.or_eq_true_iff.mp h with h | h
        · exact absurd (by simpa using h) hp
        · exact h
      have hfp : (if p.1 == k then (k, v) else p) = p := by simp [hp]
      rw [hfp, findEntry_cons_ne p.1 k p.2 _ (fun hh => hp hh.symm)]
      exact ih hrest

theorem findEntry_replace_other (kw : Kwargs) (k k' : String) (v : PyVal)
    (h : k' ≠ k) :
    findEntry (kw.map (fun p => if p.1 == k then (k, v) else p)) k' =
      findEntry kw k' := by
  induction kw with
  | nil => rfl
  | cons p rest ih =>
    rw [List.map_cons]
    by_cases hp : p.1 = k
    · have hfp : (if p.1 == k then (k, v) else p) = (k, v) := by simp [hp]
      rw [hfp, findEntry_cons_ne k k' v _ h,
        findEntry_cons_ne p.1 k' p.2 rest (by rw [hp]; exact h), ih]
    · have hfp : (if p.1 == k then (k, v) else p) = p := by simp [hp]
      rw [hfp]
      by_cases hq : p.1 = k'
      · rcases p with ⟨p1, p2⟩
        simp only at hq
        subst hq
        rw [findEntry_cons_self, findEntry_cons_self]
      · rw [findEntry_cons_ne p.1 k' p.2 _ (fun hh => hq hh.symm),
          findEntry_cons_ne p.1 k' p.2 _ (fun hh => hq hh.symm), ih]

theorem findEntry_append_single_self (kw : Kwargs) (k : String) (v : PyVal)
    (h : kw.any (fun p => p.1 == k) = false) :
    findEntry (kw ++ [(k, v)]) k = some v := by
  induction kw with
  | nil => exact findEntry_cons_self k v []
  | cons p rest ih =>
    rw [List.any_cons, Bool.or_eq_false_iff] at h
    rw [List.cons_append,
      findEntry_cons_ne p.1 k p.2 _ (Ne.symm (by simpa using h.1))]
    exact ih h.2

theorem findEntry_append_single_other (kw : Kwargs) (k k' : String) (v : PyVal)
    (h : k' ≠ k) :
    findEntry (kw ++ [(k, v)]) k' = findEntry kw k' := by
  induction kw with
  | nil => simpa [findEntry_nil] using findEntry_cons_ne k k' v [] h
  | cons p rest ih =>
    by_cases hq : p.1 = k'
    · rcases p with ⟨p1, p2⟩
      simp only at hq
      subst hq
      rw [List.cons_append, findEntry_cons_self, findEntry_cons_self]
    · rw [List.cons_append,
        findEntry_cons_ne p.1 k' p.2 _ (fun hh => hq hh.symm),
        findEntry_cons_ne p.1 k' p.2 _ (fun hh => hq hh.symm), ih]

theorem findEntry_setKw_same (kw : Kwargs) (k : String) (v : PyVal) :
    findEntry (setKw kw k v) k = some v := by
  unfold setKw
  by_cases h : kw.any (fun p => p.1 == k)
  · rw [if_pos h]
    exact findEntry_replace_self kw k v h
  · rw [if_neg h]
    exact findEntry_append_single_self kw k v (Bool.eq_false_iff.mpr h)

theorem findEntry_setKw_other (kw : Kwargs) (k k' : String) (v : PyVal)
    (h : k' ≠ k) : findEntry (setKw kw k v) k' = findEntry kw k' := by
  unfold setKw
  by_cases hany : kw.any (fun p => p.1 == k)
  · rw [if_pos hany]
    exact findEntry_replace_other kw k k' v h
  · rw [if_neg hany]
    exact findEntry_append_single_other kw k k' v h

/-! ### Label and lookup lemmas -/

theorem rsplitDotList_no_dot (l : List Char) (h : '.' ∉ l) :
    rsplitDotList l = Option.none := by
  induction l with
  | nil => rfl
  | cons c rest ih =>
    simp only [List.mem_cons, not_or] at h
    rw [rsplitDotList, ih h.2]
    exact if_neg (fun hh => h.1 hh.symm)

theorem rsplitDotList_append (a b : List Char) (h : '.' ∉ b) :
    rsplitDotList (a ++ '.' :: b) = some (a, b) := by
  induction a with
  | nil =>
    rw [List.nil_append, rsplitDotList, rsplitDotList_no_dot b h]
    simp
  | cons c a0 ih =>
    rw [List.cons_append, rsplitDotList, ih]

theorem rsplitDot_label (a b : String) (h : '.' ∉ b.data) :
    rsplitDot (a ++ "." ++ b) = some (a, b) := by
  have hdata : (a ++ "." ++ b).data = a.data ++ '.' :: b.data := by
    simp [String.data_append]
  rw [rsplitDot, hdata, rsplitDotList_append a.data b.data h]
  rfl

theorem label_ne_empty (a b : String) : a ++ "." ++ b ≠ "" := by
  intro h
  have := congrArg String.data h
  simp [String.data_append] at this

theorem find_registry_self (l : List ModelClass) (S : ModelClass) (h : S ∈ l) :
    l.find? (fun c =>
      decide (c.app_label = S.app_label ∧ c.model_name = S.model_name)) =
      some S := by
  induction l with
  | nil => simp at h
  | cons c rest ih =>
    by_cases hc : c.app_label = S.app_label ∧ c.model_name = S.model_name
    · have : c = S := by
        rcases c with ⟨ca, cn⟩
        rcases S with ⟨sa, sn⟩
        simp only at hc
        rw [hc.1, hc.2]
      rw [List.find?_cons, this]
      simp
    · rw [List.find?_cons]
      have hne : c ≠ S := fun hh => hc (by rw [hh]; exact ⟨rfl, rfl⟩)
      have hS : S ∈ rest := by
        rcases List.mem_cons.mp h with hh | hh
        · exact absurd hh.symm hne
        · exact hh
      simp only [decide_eq_true_eq, hc]
      exact ih hS

theorem resolveModel_label (w : World) (S : ModelClass) (hS : S ∈ w.registry)
    (hdot : '.' ∉ S.model_name.data) :
    resolveModel w (S.app_label ++ "." ++ S.model_name) = .ok S := by
  rw [resolveModel, rsplitDot_label S.app_label S.model_name hdot]
  simp only [find_registry_self w.registry S hS]

theorem find_registry_none (l : List ModelClass) (a b : String)
    (h : (⟨a, b⟩ : ModelClass) ∉ l) :
    l.find? (fun c => decide (c.app_label = a ∧ c.model_name = b)) =
      Option.none := by
  rw [List.find?_eq_none]
  intro c hc
  simp only [decide_eq_true_eq]
  intro hcc
  apply h
  have : c = ⟨a, b⟩ := by
    rcases c with ⟨ca, cn⟩
    simp only at hcc
    rw [hcc.1, hcc.2]
  rw [← this]
  exact hc

theorem dbGet_found (w : World) (C : ModelClass) (p : Int)
    (h : ∃ j ∈ w.db, j.cls = C ∧ j.pk = p) :
    ∃ i, dbGet w C (some p) = some i ∧ i.cls = C ∧ i.pk = p := by
  rw [dbGet]
  obtain ⟨j, hj, hcls, hpk⟩ := h
  have hsome : (w.db.find? (fun i => decide (i.cls = C ∧ i.pk = p))).isSome := by
    rw [List.find?_isSome]
    exact ⟨j, hj, by simp [hcls, hpk]⟩
  obtain ⟨i, hi⟩ := Option.isSome_iff_exists.mp hsome
  refine ⟨i, hi, ?_⟩
  have := List.find?_some hi
  simpa using this

theorem dbGet_none (w : World) (C : ModelClass) (p : Int)
    (h : ∀ j ∈ w.db, ¬(j.cls = C ∧ j.pk = p)) :
    dbGet w C (some p) = Option.none := by
  rw [dbGet, List.find?_eq_none]
  intro j hj
  simpa using h j hj

/-! ### Serialization round-trip lemmas -/

theorem mapM_asStr_map_str (l : List String) :
    (l.map PyVal.str).mapM asStr = some l := by
  induction l with
  | nil => rfl
  | cons s rest ih =>
    rw [List.map_cons, List.mapM_cons, ih]
    rfl

theorem pyFrozenset_strList (xs : List String) :
    pyFrozenset (.list (xs.map .str)) = some (.frozenset xs) := by
  rw [pyFrozenset, mapM_asStr_map_str]
  rfl

/-- What `_serialize_signal_kwargs` leaves under key `k`, as a function of
the original dict: nothing for the structurally handled keys; the
`list(value)` conversion for a non-`None` `update_fields`; the value
itself when whitelisted; nothing otherwise. -/
def serializedEntry (kwargs : Kwargs) (k : String) : Option PyVal :=
  if k = "signal" ∨ k = "sender" ∨ k = "instance" then Option.none
  else
    match findEntry kwargs k with
    | some v =>
      if k = "update_fields" ∧ v.isNone = false then (pyList v).map .list
      else if isSerializable v then some v
      else Option.none
    | Option.none => Option.none

theorem serializedEntry_cons_ne (k₀ k : String) (v₀ : PyVal) (rest : Kwargs)
    (h : k ≠ k₀) :
    serializedEntry ((k₀, v₀) :: rest) k = serializedEntry rest k := by
  unfold serializedEntry
  rw [findEntry_cons_ne k₀ k v₀ rest h]

theorem serializedEntry_not_key (kwargs : Kwargs) (k : String)
    (h : findEntry kwargs k = Option.none) :
    serializedEntry kwargs k = Option.none := by
  unfold serializedEntry
  rw [h]
  exact ite_self _

/-- The serialized dict looked up at any key agrees with `serializedEntry`
of the original dict (keys unique, as in a Python dict). -/
theorem serialize_findEntry (kwargs : Kwargs) :
    ∀ sk : Kwargs, (kwargs.map Prod.fst).Nodup →
      _serialize_signal_kwargs kwargs = some sk →
      ∀ k, findEntry sk k = serializedEntry kwargs k := by
  induction kwargs with
  | nil =>
    intro sk _ hsk k
    simp only [_serialize_signal_kwargs] at hsk
    cases hsk
    rw [findEntry_nil, serializedEntry_not_key [] k (findEntry_nil k)]
  | cons p rest ih =>
    rcases p with ⟨k₀, v₀⟩
    intro sk hnd hsk k
    rw [List.map_cons, List.nodup_cons] at hnd
    simp only [_serialize_signal_kwargs] at hsk
    by_cases h₀ : k₀ = "signal" ∨ k₀ = "sender" ∨ k₀ = "instance"
    · rw [if_pos h₀] at hsk
      by_cases hk : k = k₀
      · subst hk
        rw [ih sk hnd.2 hsk k]
        have h₁ : findEntry rest k = Option.none :=
          findEntry_eq_none_of_not_key rest k hnd.1
        rw [serializedEntry_not_key rest k h₁]
        unfold serializedEntry
        rw [if_pos h₀]
      · rw [ih sk hnd.2 hsk k, serializedEntry_cons_ne k₀ k v₀ rest hk]
    · rw [if_neg h₀] at hsk
      by_cases h₁ : k₀ = "update_fields" ∧ v₀.isNone = false
      · rw [if_pos h₁] at hsk
        rcases Option.bind_eq_some.mp hsk with ⟨l, hl, hmap⟩
        rcases Option.map_eq_some'.mp hmap with ⟨sk', hr, hsk'⟩
        subst hsk'
        by_cases hk : k = k₀
        · subst hk
          rw [findEntry_cons_self]
          unfold serializedEntry
          rw [if_neg h₀]
          simp only [findEntry_cons_self, if_pos h₁, hl, Option.map_some']
        · rw [findEntry_cons_ne k₀ k _ sk' hk, ih sk' hnd.2 hr k,
            serializedEntry_cons_ne k₀ k v₀ rest hk]
      · rw [if_neg h₁] at hsk
        by_cases h₂ : isSerializable v₀
        · rw [if_pos h₂] at hsk
          rcases Option.map_eq_some'.mp hsk with ⟨sk', hr, hsk'⟩
          subst hsk'
          by_cases hk : k = k₀
          · subst hk
            rw [findEntry_cons_self]
            unfold serializedEntry
            rw [if_neg h₀]
            simp only [findEntry_cons_self, if_neg h₁, if_pos h₂]
          · rw [findEntry_cons_ne k₀ k _ sk' hk, ih sk' hnd.2 hr k,
              serializedEntry_cons_ne k₀ k v₀ rest hk]
        · rw [if_neg h₂] at hsk
          by_cases hk : k = k₀
          · subst hk
            rw [ih sk hnd.2 hsk k]
            have hnone : findEntry rest k = Option.none :=
              findEntry_eq_none_of_not_key rest k hnd.1
            rw [serializedEntry_not_key rest k hnone]
            unfold serializedEntry
            rw [if_neg h₀]
            simp only [findEntry_cons_self, if_neg h₁,
              Bool.not_eq_true] at h₂ ⊢
            rw [if_neg (by simp [h₂])]
          · rw [ih sk hnd.2 hsk k, serializedEntry_cons_ne k₀ k v₀ rest hk]

/-- Serialization never raises when `update_fields`, if present and
non-null, is the frozenset of field names Django supplies. -/
theorem serialize_isSome (kwargs : Kwargs)
    (hUF : ∀ v, ("update_fields", v) ∈ kwargs →
      v = PyVal.none ∨ ∃ xs, v = PyVal.frozenset xs) :
    ∃ sk, _serialize_signal_kwargs kwargs = some sk := by
  induction kwargs with
  | nil => exact ⟨[], rfl⟩
  | cons p rest ih =>
    rcases p with ⟨k₀, v₀⟩
    have hUFr : ∀ v, ("update_fields", v) ∈ rest →
        v = PyVal.none ∨ ∃ xs, v = PyVal.frozenset xs :=
      fun v hv => hUF v (List.mem_cons_of_mem _ hv)
    obtain ⟨sk', hsk'⟩ := ih hUFr
    simp only [_serialize_signal_kwargs]
    by_cases h₀ : k₀ = "signal" ∨ k₀ = "sender" ∨ k₀ = "instance"
    · rw [if_pos h₀]
      exact ⟨sk', hsk'⟩
    · rw [if_neg h₀]
      by_cases h₁ : k₀ = "update_fields" ∧ v₀.isNone = false
      · rw [if_pos h₁]
        have hv₀ := hUF v₀ (by rw [h₁.1]; exact List.mem_cons_self _ _)
        rcases hv₀ with hv₀ | ⟨xs, hv₀⟩
        · rw [hv₀] at h₁
          simp [PyVal.isNone] at h₁
        · subst hv₀
          refine ⟨(k₀, .list (xs.map .str)) :: sk', ?_⟩
          rw [show pyList (PyVal.frozenset xs) = some (xs.map .str) from rfl,
            hsk']
          rfl
      · rw [if_neg h₁]
        by_cases h₂ : isSerializable v₀
        · rw [if_pos h₂, hsk']
          exact ⟨(k₀, v₀) :: sk', rfl⟩
        · rw [if_neg h₂]
          exact ⟨sk', hsk'⟩

/-- Shape of the serialized `update_fields` entry when the event carried a
frozenset or null there: absent, null, or a list of strings. -/
theorem serialized_uf_shape (kwargs sk : Kwargs)
    (hnd : (kwargs.map Prod.fst).Nodup)
    (hUF : ∀ v, ("update_fields", v) ∈ kwargs →
      v = PyVal.none ∨ ∃ xs, v = PyVal.frozenset xs)
    (hsk : _serialize_signal_kwargs kwargs = some sk) :
    findEntry sk "update_fields" = Option.none ∨
    findEntry sk "update_fields" = some PyVal.none ∨
    ∃ xs : List String, findEntry sk "update_fields" =
      some (PyVal.list (xs.map PyVal.str)) := by
  rw [serialize_findEntry kwargs sk hnd hsk "update_fields"]
  cases hf : findEntry kwargs "update_fields" with
  | none =>
    rw [serializedEntry_not_key _ _ hf]
    exact Or.inl rfl
  | some v =>
    rcases hUF v (findEntry_mem kwargs _ v hf) with hv | ⟨xs, hv⟩
    · subst hv
      right; left
      simp [serializedEntry, hf, PyVal.isNone, isSerializable]
    · subst hv
      right; right
      refine ⟨xs, ?_⟩
      simp [serializedEntry, hf, PyVal.isNone, pyList]

/-- With an absent, null, or string-list `update_fields` entry, the
bridge's frozenset restoration succeeds and only that entry changes. -/
theorem reconstruct_uf_ok (kw : Kwargs)
    (h : findEntry kw "update_fields" = Option.none ∨
         findEntry kw "update_fields" = some PyVal.none ∨
         ∃ xs : List String, findEntry kw "update_fields" =
           some (PyVal.list (xs.map PyVal.str))) :
    ∃ kw2, reconstruct_update_fields kw = .ok kw2 ∧
      ∀ k, k ≠ "update_fields" → findEntry kw2 k = findEntry kw k := by
  rcases h with h | h | ⟨xs, h⟩
  · exact ⟨kw, by rw [reconstruct_update_fields, h], fun _ _ => rfl⟩
  · exact ⟨kw, by rw [reconstruct_update_fields, h]; rfl, fun _ _ => rfl⟩
  · refine ⟨setKw kw "update_fields" (PyVal.frozenset xs), ?_, ?_⟩
    · rw [reconstruct_update_fields, h]
      simp only [PyVal.isNone, pyFrozenset_strList]
      rfl
    · intro k hk
      exact findEntry_setKw_other kw "update_fields" k _ hk

/-- A null `update_fields` entry is left untouched by the bridge. -/
theorem reconstruct_uf_untouched (kw : Kwargs)
    (h : findEntry kw "update_fields" = some PyVal.none) :
    reconstruct_update_fields kw = .ok kw := by
  rw [reconstruct_update_fields, h]
  rfl

/-! ### Bridge-stage lemmas -/

theorem resolveModel_notfound (w : World) (lbl a b : String)
    (hsplit : rsplitDot lbl = some (a, b))
    (h : (⟨a, b⟩ : ModelClass) ∉ w.registry) :
    resolveModel w lbl = .error .lookupError := by
  rw [resolveModel, hsplit]
  simp only [find_registry_none w.registry a b h]

theorem reconstructSender_noneLabel (w : World) :
    reconstructSender w Option.none = .ok Option.none := rfl

theorem reconstructSender_some (w : World) (S : ModelClass)
    (hS : S ∈ w.registry) (hdot : '.' ∉ S.model_name.data) :
    reconstructSender w (some (S.app_label ++ "." ++ S.model_name)) =
      .ok (some S) := by
  rw [reconstructSender, if_neg (label_ne_empty _ _),
    resolveModel_label w S hS hdot]
  rfl

theorem reconstructSender_err (w : World) (lbl : String) (he : lbl ≠ "")
    (e : PyErr) (h : resolveModel w lbl = .error e) :
    reconstructSender w (some lbl) = .error e := by
  rw [reconstructSender, if_neg he, h]
  rfl

theorem reconstructInstance_noneLabel (w : World) (pk : Option Int)
    (kw : Kwargs) :
    reconstructInstance w Option.none pk kw = .ok (Option.none, kw) := rfl

theorem reconstructInstance_resolved (w : World) (lbl : String) (he : lbl ≠ "")
    (mc : ModelClass) (hres : resolveModel w lbl = .ok mc)
    (pk : Option Int) (kw : Kwargs) :
    reconstructInstance w (some lbl) pk kw =
      (match dbGet w mc pk with
       | some i => .ok (some i, kw)
       | Option.none =>
         .ok (Option.none, setKw kw "_instance_pk" (pkToPy pk))) := by
  simp only [reconstructInstance]
  rw [if_neg he, hres]
  rfl

theorem reconstructInstance_err (w : World) (lbl : String) (he : lbl ≠ "")
    (e : PyErr) (h : resolveModel w lbl = .error e) (pk : Option Int)
    (kw : Kwargs) :
    reconstructInstance w (some lbl) pk kw = .error e := by
  simp only [reconstructInstance]
  rw [if_neg he, h]
  rfl

theorem reconstructInstance_ok_kwargs (w : World) (il : Option String)
    (pk : Option Int) (kw : Kwargs) (i : Option Inst) (kw1 : Kwargs)
    (h : reconstructInstance w il pk kw = .ok (i, kw1)) :
    kw1 = kw ∨ kw1 = setKw kw "_instance_pk" (pkToPy pk) := by
  cases il with
  | none =>
    simp only [reconstructInstance, Except.ok.injEq, Prod.mk.injEq] at h
    exact Or.inl h.2.symm
  | some lbl =>
    simp only [reconstructInstance] at h
    by_cases he : lbl = ""
    · rw [if_pos he] at h
      simp only [Except.ok.injEq, Prod.mk.injEq] at h
      exact Or.inl h.2.symm
    · rw [if_neg he] at h
      cases hr : resolveModel w lbl with
      | error e =>
        rw [hr] at h
        simp [Except.bind] at h
      | ok mc =>
        rw [hr] at h
        simp only [Except.bind] at h
        cases hd : dbGet w mc pk with
        | some j =>
          rw [hd] at h
          simp only [Except.ok.injEq, Prod.mk.injEq] at h
          exact Or.inl h.2.symm
        | none =>
          rw [hd] at h
          simp only [Except.ok.injEq, Prod.mk.injEq] at h
          exact Or.inr h.2.symm

theorem async_task_func_ok (w : World) (sl il : Option String)
    (pk : Option Int) (kw : Kwargs) (s : Option ModelClass) (i : Option Inst)
    (kw1 kw2 : Kwargs)
    (h1 : reconstructSender w sl = .ok s)
    (h2 : reconstructInstance w il pk kw = .ok (i, kw1))
    (h3 : reconstruct_update_fields kw1 = .ok kw2) :
    async_task_func w sl il pk kw = .ok ⟨s, i, kw2⟩ := by
  rw [async_task_func, h1]
  simp only [Except.bind]
  rw [h2]
  simp only [Except.bind]
  rw [h3]
  rfl

theorem async_task_func_sender_err (w : World) (sl il : Option String)
    (pk : Option Int) (kw : Kwargs) (e : PyErr)
    (h : reconstructSender w sl = .error e) :
    async_task_func w sl il pk kw = .error e := by
  rw [async_task_func, h]
  rfl

theorem async_task_func_instance_err (w : World) (sl il : Option String)
    (pk : Option Int) (kw : Kwargs) (s : Option ModelClass) (e : PyErr)
    (h1 : reconstructSender w sl = .ok s)
    (h2 : reconstructInstance w il pk kw = .error e) :
    async_task_func w sl il pk kw = .error e := by
  rw [async_task_func, h1]
  simp only [Except.bind]
  rw [h2]

theorem async_task_func_ok_inv (w : World) (sl il : Option String)
    (pk : Option Int) (kw : Kwargs) (call : HandlerCall)
    (h : async_task_func w sl il pk kw = .ok call) :
    ∃ s i kw1, reconstructSender w sl = .ok s ∧
      reconstructInstance w il pk kw = .ok (i, kw1) ∧
      reconstruct_update_fields kw1 = .ok call.kwargs ∧
      call.sender = s ∧ call.inst = i := by
  rw [async_task_func] at h
  cases h1 : reconstructSender w sl with
  | error e =>
    rw [h1] at h
    simp [Except.bind] at h
  | ok s =>
    rw [h1] at h
    simp only [Except.bind] at h
    cases h2 : reconstructInstance w il pk kw with
    | error e =>
      rw [h2] at h
      simp [Except.bind] at h
    | ok p =>
      rw [h2] at h
      simp only [Except.bind] at h
      cases h3 : reconstruct_update_fields p.2 with
      | error e =>
        rw [h3] at h
        simp [Except.map] at h
      | ok kw2 =>
        rw [h3] at h
        simp only [Except.map, Except.ok.injEq] at h
        subst h
        exact ⟨s, p.1, p.2, rfl, rfl, h3, rfl, rfl⟩

theorem reconstructInstance_preserves_uf (w : World) (il : Option String)
    (pk : Option Int) (kw : Kwargs) (i : Option Inst) (kw1 : Kwargs)
    (h : reconstructInstance w il pk kw = .ok (i, kw1)) :
    findEntry kw1 "update_fields" = findEntry kw "update_fields" := by
  rcases reconstructInstance_ok_kwargs w il pk kw i kw1 h with h1 | h1 <;>
    subst h1
  · rfl
  · exact findEntry_setKw_other kw "_instance_pk" "update_fields" _ (by decide)

/-! ### Wrapper-level lemmas -/

theorem signal_handler_guard (tp : String) (kwargs : Kwargs)
    (hq : senderIsDjangoQ (kwargsSender kwargs) = true) :
    signal_handler tp kwargs = .ok Option.none := by
  simp only [signal_handler, hq, if_true]

theorem signal_handler_submits (tp : String) (kwargs sk : Kwargs)
    (hq : senderIsDjangoQ (kwargsSender kwargs) = false)
    (hser : _serialize_signal_kwargs kwargs = some sk) :
    signal_handler tp kwargs = .ok (some
      ⟨tp, _get_model_label (kwargsSender kwargs),
        _get_instance_label (kwargsInst kwargs),
        (kwargsInst kwargs).map (·.pk), sk⟩) := by
  simp only [signal_handler, hq, Bool.false_eq_true, if_false, hser]

theorem signal_handler_path (tp : String) (kwargs : Kwargs)
    (sub : TaskSubmission)
    (h : signal_handler tp kwargs = .ok (some sub)) : sub.task_path = tp := by
  simp only [signal_handler] at h
  by_cases hq : senderIsDjangoQ (kwargsSender kwargs) = true
  · rw [if_pos hq] at h
    simp at h
  · rw [if_neg hq] at h
    cases hser : _serialize_signal_kwargs kwargs with
    | none =>
      rw [hser] at h
      simp at h
    | some sk =>
      rw [hser] at h
      simp only [Except.ok.injEq, Option.some.injEq] at h
      rw [← h]

/-! ### Registrar lemmas -/

theorem getModAttr_setModAttr_same (mods : Modules) (m a : String) (f : Func) :
    getModAttr (setModAttr mods m a f) m a = some f := by
  unfold setModAttr
  by_cases h : mods.any (fun e => e.1.1 == m && e.1.2 == a)
  · rw [if_pos h]
    induction mods with
    | nil => simp at h
    | cons e rest ih =>
      rw [List.map_cons]
      by_cases he : e.1.1 == m && e.1.2 == a
      · rw [if_pos he]
        simp [getModAttr, List.find?_cons]
      · rw [if_neg he]
        have hrest : rest.any (fun e => e.1.1 == m && e.1.2 == a) = true := by
          rw [List.any_cons] at h
          rcases Bool.or_eq_true_iff.mp h with hh | hh
          · exact absurd hh he
          · exact hh
        have hstep : getModAttr (e :: rest.map
            (fun e => if e.1.1 == m && e.1.2 == a then ((m, a), f) else e))
            m a = getModAttr (rest.map
            (fun e => if e.1.1 == m && e.1.2 == a then ((m, a), f) else e))
            m a := by
          simp only [getModAttr, List.find?_cons]
          rw [show ((e.1.1 == m && e.1.2 == a) : Bool) = false from
            Bool.eq_false_iff.mpr he]
        rw [hstep]
        exact ih hrest
  · rw [if_neg h]
    induction mods with
    | nil => simp [getModAttr, List.find?_cons]
    | cons e rest ih =>
      simp only [List.any_cons, Bool.or_eq_true, not_or] at h
      have hstep : getModAttr ((e :: rest) ++ [((m, a), f)]) m a =
          getModAttr (rest ++ [((m, a), f)]) m a := by
        simp only [List.cons_append, getModAttr, List.find?_cons]
        rw [Bool.eq_false_iff.mpr h.1]
      rw [hstep]
      exact ih h.2

theorem connectAll_many_snd (ss : List Nat) (f : Func) :
    ∀ acc : List (Nat × Func), (∀ c ∈ acc, c.2 = f) →
      ∀ c ∈ connectAll (.many ss) f acc, c.2 = f := by
  induction ss with
  | nil =>
    intro acc hacc c hc
    exact hacc c hc
  | cons s rest ih =>
    intro acc hacc c hc
    simp only [connectAll, List.foldl_cons] at hc ⊢
    refine ih (acc ++ [(s, f)]) ?_ c hc
    intro d hd
    rcases List.mem_append.mp hd with hd | hd
    · exact hacc d hd
    · rw [List.mem_singleton.mp hd]

theorem connectAll_snd (sig : SignalArg) (f : Func) :
    ∀ c ∈ connectAll sig f [], c.2 = f := by
  cases sig with
  | single s =>
    intro c hc
    simp only [connectAll, List.nil_append, List.mem_singleton] at hc
    rw [hc]
  | many ss =>
    exact connectAll_many_snd ss f [] (by intro c hc; simp at hc)

theorem submissionsOfFire_mem (conns : List (Nat × Func)) (s : Nat)
    (kwargs : Kwargs) (sub : TaskSubmission)
    (h : sub ∈ submissionsOfFire conns s kwargs) :
    ∃ c ∈ conns, c.1 = s ∧
      signal_handler (task_path_of c.2) kwargs = .ok (some sub) := by
  rw [submissionsOfFire] at h
  rcases List.mem_filterMap.mp h with ⟨r, hr, hmatch⟩
  rw [fireSignal] at hr
  rcases List.mem_map.mp hr with ⟨c, hc, hr'⟩
  refine ⟨c, List.mem_of_mem_filter hc, ?_, ?_⟩
  · have := List.of_mem_filter hc
    simpa using this
  · rw [hr']
    cases r with
    | error e => simp at hmatch
    | ok o =>
      cases o with
      | none => simp at hmatch
      | some sub' =>
        simp only [Option.some.injEq] at hmatch
        rw [hmatch]

/-! ### Claims -/

/-- C5: for every registered handler and every topic it is connected to,
an event whose sender's app label is the task queue's own bookkeeping
domain `"django_q"` makes the wrapper return immediately, and no task
submission occurs. -/
theorem C5_django_q_guard (kwargs : Kwargs) (c : ModelClass)
    (hsender : lookupKw kwargs "sender" = PyVal.modelClass c)
    (happ : c.app_label = "django_q") :
    (∀ tp, signal_handler tp kwargs = .ok Option.none) ∧
    (∀ (conns : List (Nat × Func)) (s : Nat),
      submissionsOfFire conns s kwargs = []) := by
  have hq : senderIsDjangoQ (kwargsSender kwargs) = true := by
    unfold kwargsSender
    rw [hsender]
    simp [senderIsDjangoQ, happ]
  refine ⟨fun tp => signal_handler_guard tp kwargs hq, fun conns s => ?_⟩
  rw [submissionsOfFire, List.filterMap_eq_nil_iff]
  intro r hr
  rw [fireSignal] at hr
  rcases List.mem_map.mp hr with ⟨c', _, hr'⟩
  rw [← hr', signal_handler_guard _ kwargs hq]

/-- Witness for C5 at one concrete django_q-sender event. -/
theorem C5_django_q_guard_witness :
    (lookupKw [("sender", PyVal.modelClass ⟨"django_q", "task"⟩)] "sender" =
        PyVal.modelClass ⟨"django_q", "task"⟩ ∧
      ModelClass.app_label ⟨"django_q", "task"⟩ = "django_q") ∧
    ((∀ tp, signal_handler tp
        [("sender", PyVal.modelClass ⟨"django_q", "task"⟩)] =
        .ok Option.none) ∧
     (∀ (conns : List (Nat × Func)) (s : Nat),
        submissionsOfFire conns s
          [("sender", PyVal.modelClass ⟨"django_q", "task"⟩)] = [])) :=
  ⟨⟨rfl, rfl⟩, C5_django_q_guard _ _ rfl rfl⟩

/-- C6: a Task Bridge payload whose sender label (or instance label)
names a type absent from the running application's registry makes the
type lookup fail with `LookupError`, which the bridge does not catch: the
bridge as a whole fails with that error. -/
theorem C6_unknown_type_propagates (w : World) (lbl a b : String)
    (hsplit : rsplitDot lbl = some (a, b))
    (hmissing : (⟨a, b⟩ : ModelClass) ∉ w.registry)
    (hne : lbl ≠ "") :
    (∀ (il : Option String) (pk : Option Int) (kw : Kwargs),
      async_task_func w (some lbl) il pk kw = .error .lookupError) ∧
    (∀ (sl : Option String) (s : Option ModelClass),
      reconstructSender w sl = .ok s →
      ∀ (pk : Option Int) (kw : Kwargs),
        async_task_func w sl (some lbl) pk kw = .error .lookupError) := by
  have hres : resolveModel w lbl = .error .lookupError :=
    resolveModel_notfound w lbl a b hsplit hmissing
  constructor
  · intro il pk kw
    exact async_task_func_sender_err w _ il pk kw _
      (reconstructSender_err w lbl hne _ hres)
  · intro sl s hs pk kw
    exact async_task_func_instance_err w sl _ pk kw s _ hs
      (reconstructInstance_err w lbl hne _ hres pk kw)

/-- Witness for C6: an empty registry and the label "app.gone". -/
theorem C6_unknown_type_propagates_witness :
    (rsplitDot "app.gone" = some ("app", "gone") ∧
      (⟨"app", "gone"⟩ : ModelClass) ∉ (World.mk [] []).registry ∧
      "app.gone" ≠ "") ∧
    ((∀ (il : Option String) (pk : Option Int) (kw : Kwargs),
        async_task_func ⟨[], []⟩ (some "app.gone") il pk kw =
          .error .lookupError) ∧
     (∀ (sl : Option String) (s : Option ModelClass),
        reconstructSender ⟨[], []⟩ sl = .ok s →
        ∀ (pk : Option Int) (kw : Kwargs),
          async_task_func ⟨[], []⟩ sl (some "app.gone") pk kw =
            .error .lookupError)) :=
  ⟨⟨by decide, by simp, by decide⟩,
    C6_unknown_type_propagates ⟨[], []⟩ "app.gone" "app" "gone"
      (by decide) (by simp) (by decide)⟩

/-- C2: serializing a finite update-field set emits it as a list of its
member strings, and the bridge's reconstruction of any reordering of that
list yields a frozenset membership-equal to the original set. -/
theorem C2_update_fields_roundtrip (F : List String) :
    _serialize_signal_kwargs [("update_fields", PyVal.frozenset F)] =
      some [("update_fields", PyVal.list (F.map PyVal.str))] ∧
    ∀ l : List String, l.Perm F →
      ∃ kw2, reconstruct_update_fields
          [("update_fields", PyVal.list (l.map PyVal.str))] = .ok kw2 ∧
        ∃ G : List String,
          findEntry kw2 "update_fields" = some (PyVal.frozenset G) ∧
          ∀ s, s ∈ G ↔ s ∈ F := by
  constructor
  · rfl
  · intro l hl
    refine ⟨[("update_fields", PyVal.frozenset l)], ?_, l, rfl,
      fun s => hl.mem_iff⟩
    rw [reconstruct_update_fields, findEntry_cons_self]
    simp only [PyVal.isNone, pyFrozenset_strList]
    rfl

/-- Witness for C2 at a two-element set and its reversal. -/
theorem C2_update_fields_roundtrip_witness :
    (["body", "title"] : List String).Perm ["title", "body"] ∧
    ∃ kw2, reconstruct_update_fields
        [("update_fields",
          PyVal.list (["body", "title"].map PyVal.str))] = .ok kw2 ∧
      ∃ G : List String,
        findEntry kw2 "update_fields" = some (PyVal.frozenset G) ∧
        ∀ s, s ∈ G ↔ s ∈ (["title", "body"] : List String) :=
  ⟨by decide,
    (C2_update_fields_roundtrip ["title", "body"]).2 ["body", "title"]
      (by decide)⟩

theorem isNone_eq_false_iff (v : PyVal) :
    v.isNone = false ↔ v ≠ PyVal.none := by
  cases v <;> simp [PyVal.isNone]

/-- C3: serialized metadata (a) never contains the `signal`, `sender` or
`instance` keys, and (b) contains every other key exactly when its value
is of a whitelisted type (the non-null update-field set being kept,
converted to a list); any other value is dropped with no error raised. -/
theorem C3_serialize_rule (kwargs : Kwargs)
    (hnd : (kwargs.map Prod.fst).Nodup)
    (hUF : ∀ v, ("update_fields", v) ∈ kwargs →
      v = PyVal.none ∨ ∃ xs : List String, v = PyVal.frozenset xs) :
    ∃ sk, _serialize_signal_kwargs kwargs = some sk ∧
      (findEntry sk "signal" = Option.none ∧
       findEntry sk "sender" = Option.none ∧
       findEntry sk "instance" = Option.none) ∧
      ∀ k, k ≠ "signal" → k ≠ "sender" → k ≠ "instance" →
        (findEntry kwargs k = Option.none → findEntry sk k = Option.none) ∧
        ∀ v, findEntry kwargs k = some v →
          ((k = "update_fields" ∧ v ≠ PyVal.none) →
            ∃ xs : List String, v = PyVal.frozenset xs ∧
              findEntry sk k = some (PyVal.list (xs.map PyVal.str))) ∧
          (¬(k = "update_fields" ∧ v ≠ PyVal.none) →
            (isSerializable v = true → findEntry sk k = some v) ∧
            (isSerializable v = false → findEntry sk k = Option.none)) := by
  obtain ⟨sk, hsk⟩ := serialize_isSome kwargs hUF
  have hchar := serialize_findEntry kwargs sk hnd hsk
  refine ⟨sk, hsk, ⟨?_, ?_, ?_⟩, ?_⟩
  · rw [hchar "signal"]
    unfold serializedEntry
    rw [if_pos (Or.inl rfl)]
  · rw [hchar "sender"]
    unfold serializedEntry
    rw [if_pos (Or.inr (Or.inl rfl))]
  · rw [hchar "instance"]
    unfold serializedEntry
    rw [if_pos (Or.inr (Or.inr rfl))]
  · intro k h1 h2 h3
    have hdrop : ¬(k = "signal" ∨ k = "sender" ∨ k = "instance") := by
      push_neg
      exact ⟨h1, h2, h3⟩
    constructor
    · intro habs
      rw [hchar k]
      exact serializedEntry_not_key kwargs k habs
    · intro v hv
      constructor
      · rintro ⟨hk, hvn⟩
        subst hk
        rcases hUF v (findEntry_mem kwargs _ v hv) with hv0 | ⟨xs, hv0⟩
        · exact absurd hv0 hvn
        · subst hv0
          refine ⟨xs, rfl, ?_⟩
          rw [hchar "update_fields"]
          simp only [serializedEntry, if_neg hdrop, hv]
          simp [PyVal.isNone, pyList]
      · intro hnotuf
        have hC1 : ¬(k = "update_fields" ∧ v.isNone = false) := by
          rintro ⟨hk, hn⟩
          exact hnotuf ⟨hk, (isNone_eq_false_iff v).mp hn⟩
        constructor
        · intro hser
          rw [hchar k]
          simp only [serializedEntry, if_neg hdrop, hv]
          rw [if_neg hC1, if_pos hser]
        · intro hser
          rw [hchar k]
          simp only [serializedEntry, if_neg hdrop, hv]
          rw [if_neg hC1, if_neg (by simp [hser])]

/-- Witness for C3 at a mixed concrete event dict. -/
theorem C3_serialize_rule_witness :
    ((([("signal", PyVal.signalObj 0),
        ("sender", PyVal.modelClass ⟨"app", "article"⟩),
        ("instance", PyVal.inst ⟨⟨"app", "article"⟩, 1, 0⟩),
        ("created", PyVal.bool true),
        ("update_fields", PyVal.frozenset ["title"]),
        ("raw", PyVal.obj 7)] : Kwargs).map Prod.fst).Nodup) ∧
    (∃ sk, _serialize_signal_kwargs
        [("signal", PyVal.signalObj 0),
         ("sender", PyVal.modelClass ⟨"app", "article"⟩),
         ("instance", PyVal.inst ⟨⟨"app", "article"⟩, 1, 0⟩),
         ("created", PyVal.bool true),
         ("update_fields", PyVal.frozenset ["title"]),
         ("raw", PyVal.obj 7)] = some sk ∧
      (findEntry sk "signal" = Option.none ∧
       findEntry sk "sender" = Option.none ∧
       findEntry sk "instance" = Option.none) ∧
      ∀ k, k ≠ "signal" → k ≠ "sender" → k ≠ "instance" →
        (findEntry
          [("signal", PyVal.signalObj 0),
           ("sender", PyVal.modelClass ⟨"app", "article"⟩),
           ("instance", PyVal.inst ⟨⟨"app", "article"⟩, 1, 0⟩),
           ("created", PyVal.bool true),
           ("update_fields", PyVal.frozenset ["title"]),
           ("raw", PyVal.obj 7)] k = Option.none →
          findEntry sk k = Option.none) ∧
        ∀ v, findEntry
          [("signal", PyVal.signalObj 0),
           ("sender", PyVal.modelClass ⟨"app", "article"⟩),
           ("instance", PyVal.inst ⟨⟨"app", "article"⟩, 1, 0⟩),
           ("created", PyVal.bool true),
           ("update_fields", PyVal.frozenset ["title"]),
           ("raw", PyVal.obj 7)] k = some v →
          ((k = "update_fields" ∧ v ≠ PyVal.none) →
            ∃ xs : List String, v = PyVal.frozenset xs ∧
              findEntry sk k = some (PyVal.list (xs.map PyVal.str))) ∧
          (¬(k = "update_fields" ∧ v ≠ PyVal.none) →
            (isSerializable v = true → findEntry sk k = some v) ∧
            (isSerializable v = false → findEntry sk k = Option.none))) :=
  ⟨by decide,
    C3_serialize_rule _ (by decide)
      (by
        intro v hv
        simp only [List.mem_cons, List.not_mem_nil, or_false,
          Prod.mk.injEq] at hv
        rcases hv with ⟨h, _⟩ | ⟨h, _⟩ | ⟨h, _⟩ | ⟨h, _⟩ | ⟨_, h⟩ | ⟨h, _⟩ <;>
          first
            | (exact absurd h (by decide))
            | (subst h; exact Or.inr ⟨["title"], rfl⟩))⟩

/-- C10: an event whose `update_fields` kwarg is null keeps that key,
mapped to null, through serialization; the bridge's set-reconstruction
leaves it untouched, and the handler receives it as null. -/
theorem C10_null_update_fields (kwargs : Kwargs)
    (hnd : (kwargs.map Prod.fst).Nodup)
    (hUF : ∀ v, ("update_fields", v) ∈ kwargs → v = PyVal.none)
    (hpresent : findEntry kwargs "update_fields" = some PyVal.none) :
    ∃ sk, _serialize_signal_kwargs kwargs = some sk ∧
      findEntry sk "update_fields" = some PyVal.none ∧
      reconstruct_update_fields sk = .ok sk ∧
      ∀ (w : World) (sl il : Option String) (pk : Option Int)
        (call : HandlerCall),
        async_task_func w sl il pk sk = .ok call →
        findEntry call.kwargs "update_fields" = some PyVal.none := by
  obtain ⟨sk, hsk⟩ := serialize_isSome kwargs (fun v hv => Or.inl (hUF v hv))
  have hchar := serialize_findEntry kwargs sk hnd hsk
  have hufsk : findEntry sk "update_fields" = some PyVal.none := by
    rw [hchar "update_fields"]
    simp only [serializedEntry, if_neg (show ¬("update_fields" = "signal" ∨
      "update_fields" = "sender" ∨ "update_fields" = "instance") by simp),
      hpresent]
    rfl
  have hrec : reconstruct_update_fields sk = .ok sk :=
    reconstruct_uf_untouched sk hufsk
  refine ⟨sk, hsk, hufsk, hrec, ?_⟩
  intro w sl il pk call hcall
  obtain ⟨s, i, kw1, _, hi, hu, _, _⟩ :=
    async_task_func_ok_inv w sl il pk sk call hcall
  have hkw1 : findEntry kw1 "update_fields" = some PyVal.none := by
    rw [reconstructInstance_preserves_uf w il pk sk i kw1 hi, hufsk]
  have huntouched : reconstruct_update_fields kw1 = .ok kw1 :=
    reconstruct_uf_untouched kw1 hkw1
  have hkc : kw1 = call.kwargs := Except.ok.inj (huntouched.symm.trans hu)
  rw [← hkc]
  exact hkw1

/-- Witness for C10 at a concrete event with a null update_fields. -/
theorem C10_null_update_fields_witness :
    ((([("update_fields", PyVal.none), ("created", PyVal.bool false)] :
        Kwargs).map Prod.fst).Nodup ∧
      findEntry [("update_fields", PyVal.none),
        ("created", PyVal.bool false)] "update_fields" =
        some PyVal.none) ∧
    (∃ sk, _serialize_signal_kwargs
        [("update_fields", PyVal.none), ("created", PyVal.bool false)] =
        some sk ∧
      findEntry sk "update_fields" = some PyVal.none ∧
      reconstruct_update_fields sk = .ok sk ∧
      ∀ (w : World) (sl il : Option String) (pk : Option Int)
        (call : HandlerCall),
        async_task_func w sl il pk sk = .ok call →
        findEntry call.kwargs "update_fields" = some PyVal.none) :=
  ⟨⟨by decide, rfl⟩,
    C10_null_update_fields _ (by decide)
      (by
        intro v hv
        simp only [List.mem_cons, List.not_mem_nil, or_false,
          Prod.mk.injEq] at hv
        rcases hv with ⟨_, h⟩ | ⟨h, _⟩
        · exact h
        · exact absurd h (by decide))
      rfl⟩

/-- C4: a bridge invocation whose instance label resolves but whose
primary key matches no record calls the handler with instance None and
`_instance_pk` equal to the submitted key; the missing-record case
escapes with no exception. -/
theorem C4_missing_record (w : World) (lbl : String) (hne : lbl ≠ "")
    (mc : ModelClass) (hres : resolveModel w lbl = .ok mc)
    (pk : Option Int) (hdb : dbGet w mc pk = Option.none)
    (sl : Option String) (s : Option ModelClass)
    (hs : reconstructSender w sl = .ok s)
    (kw : Kwargs)
    (hUFkw : findEntry kw "update_fields" = Option.none ∨
             findEntry kw "update_fields" = some PyVal.none ∨
             ∃ xs : List String, findEntry kw "update_fields" =
               some (PyVal.list (xs.map PyVal.str))) :
    ∃ call, async_task_func w sl (some lbl) pk kw = .ok call ∧
      call.inst = Option.none ∧
      findEntry call.kwargs "_instance_pk" = some (pkToPy pk) := by
  have hinst : reconstructInstance w (some lbl) pk kw =
      .ok (Option.none, setKw kw "_instance_pk" (pkToPy pk)) := by
    rw [reconstructInstance_resolved w lbl hne mc hres pk kw, hdb]
  have hufkw1 : findEntry (setKw kw "_instance_pk" (pkToPy pk))
      "update_fields" = findEntry kw "update_fields" :=
    findEntry_setKw_other kw "_instance_pk" "update_fields" _ (by decide)
  obtain ⟨kw2, hrec, hpres⟩ :=
    reconstruct_uf_ok (setKw kw "_instance_pk" (pkToPy pk))
      (by rw [hufkw1]; exact hUFkw)
  refine ⟨⟨s, Option.none, kw2⟩,
    async_task_func_ok w sl _ pk kw s _ _ kw2 hs hinst hrec, rfl, ?_⟩
  rw [hpres "_instance_pk" (by decide)]
  exact findEntry_setKw_same kw "_instance_pk" (pkToPy pk)

/-- Witness for C4: a registered type, an empty table, key 5. -/
theorem C4_missing_record_witness :
    ("app.article" ≠ "" ∧
      resolveModel ⟨[⟨"app", "article"⟩], []⟩ "app.article" =
        .ok ⟨"app", "article"⟩ ∧
      dbGet ⟨[⟨"app", "article"⟩], []⟩ ⟨"app", "article"⟩ (some 5) =
        Option.none ∧
      reconstructSender ⟨[⟨"app", "article"⟩], []⟩ Option.none =
        .ok Option.none) ∧
    (∃ call, async_task_func ⟨[⟨"app", "article"⟩], []⟩ Option.none
        (some "app.article") (some 5) [] = .ok call ∧
      call.inst = Option.none ∧
      findEntry call.kwargs "_instance_pk" = some (pkToPy (some 5))) :=
  ⟨⟨by decide, rfl, rfl, rfl⟩,
    C4_missing_record ⟨[⟨"app", "article"⟩], []⟩ "app.article" (by decide)
      ⟨"app", "article"⟩ rfl (some 5) rfl Option.none Option.none rfl []
      (Or.inl rfl)⟩

/-- C9: an event fired with instance None never raises: the wrapper
submits a task with null instance label and null key, and the bridge then
invokes the handler with instance None. -/
theorem C9_instance_none (w : World) (kwargs : Kwargs) (tp : String)
    (hnd : (kwargs.map Prod.fst).Nodup)
    (hUF : ∀ v, ("update_fields", v) ∈ kwargs →
      v = PyVal.none ∨ ∃ xs : List String, v = PyVal.frozenset xs)
    (hinst : lookupKw kwargs "instance" = PyVal.none)
    (hsender : lookupKw kwargs "sender" = PyVal.none ∨
      ∃ S : ModelClass, lookupKw kwargs "sender" = PyVal.modelClass S ∧
        S.app_label ≠ "django_q" ∧ S ∈ w.registry ∧
        '.' ∉ S.model_name.data) :
    ∃ sub, signal_handler tp kwargs = .ok (some sub) ∧
      sub.instance_label = Option.none ∧
      sub.instance_pk = Option.none ∧
      ∃ call, async_task_func w sub.sender_label sub.instance_label
          sub.instance_pk sub.kwargs = .ok call ∧
        call.inst = Option.none := by
  have hki : kwargsInst kwargs = Option.none := by
    unfold kwargsInst
    rw [hinst]
  have hq : senderIsDjangoQ (kwargsSender kwargs) = false := by
    rcases hsender with h | ⟨S, h, happ, _, _⟩
    · unfold kwargsSender
      rw [h]
      rfl
    · unfold kwargsSender
      rw [h]
      simpa [senderIsDjangoQ] using happ
  obtain ⟨sk, hsk⟩ := serialize_isSome kwargs hUF
  have hsub := signal_handler_submits tp kwargs sk hq hsk
  obtain ⟨kw2, hrec, _⟩ :=
    reconstruct_uf_ok sk (serialized_uf_shape kwargs sk hnd hUF hsk)
  have hsrec : ∃ s, reconstructSender w
      (_get_model_label (kwargsSender kwargs)) = .ok s := by
    rcases hsender with h | ⟨S, h, _, hreg, hdot⟩
    · refine ⟨Option.none, ?_⟩
      unfold kwargsSender
      rw [h]
      rfl
    · have hks : kwargsSender kwargs = some S := by
        unfold kwargsSender
        rw [h]
      refine ⟨some S, ?_⟩
      rw [hks]
      exact reconstructSender_some w S hreg hdot
  obtain ⟨s, hs⟩ := hsrec
  refine ⟨_, hsub, ?_, ?_, ⟨s, Option.none, kw2⟩, ?_, rfl⟩
  · show _get_instance_label (kwargsInst kwargs) = Option.none
    rw [hki]
    rfl
  · show (kwargsInst kwargs).map (·.pk) = Option.none
    rw [hki]
    rfl
  · show async_task_func w (_get_model_label (kwargsSender kwargs))
      (_get_instance_label (kwargsInst kwargs))
      ((kwargsInst kwargs).map (·.pk)) sk = .ok ⟨s, Option.none, kw2⟩
    rw [hki]
    exact async_task_func_ok w _ _ _ sk s Option.none sk kw2 hs
      (reconstructInstance_noneLabel w _ sk) hrec

/-- Witness for C9 at a concrete post_delete-like event without an
instance. -/
theorem C9_instance_none_witness :
    ((([("sender", PyVal.modelClass ⟨"app", "article"⟩),
        ("created", PyVal.bool true)] : Kwargs).map Prod.fst).Nodup ∧
      lookupKw [("sender", PyVal.modelClass ⟨"app", "article"⟩),
        ("created", PyVal.bool true)] "instance" = PyVal.none) ∧
    (∃ sub, signal_handler "m.h_task"
        [("sender", PyVal.modelClass ⟨"app", "article"⟩),
         ("created", PyVal.bool true)] = .ok (some sub) ∧
      sub.instance_label = Option.none ∧
      sub.instance_pk = Option.none ∧
      ∃ call, async_task_func ⟨[⟨"app", "article"⟩], []⟩ sub.sender_label
          sub.instance_label sub.instance_pk sub.kwargs = .ok call ∧
        call.inst = Option.none) :=
  ⟨⟨by decide, rfl⟩,
    C9_instance_none ⟨[⟨"app", "article"⟩], []⟩ _ "m.h_task" (by decide)
      (by
        intro v hv
        simp only [List.mem_cons, List.not_mem_nil, or_false,
          Prod.mk.injEq] at hv
        rcases hv with ⟨h, _⟩ | ⟨h, _⟩ <;> exact absurd h (by decide))
      rfl
      (Or.inr ⟨⟨"app", "article"⟩, rfl, by decide, by simp, by decide⟩)⟩

/-- C1: invoking the Task Bridge with exactly the payload the wrapper
submitted for an event with a registered sender S and an instance I that
still exists calls the handler with sender S and an instance whose
primary key equals I's. -/
theorem C1_payload_roundtrip (w : World) (kwargs : Kwargs) (tp : String)
    (S : ModelClass) (I : Inst)
    (hnd : (kwargs.map Prod.fst).Nodup)
    (hUF : ∀ v, ("update_fields", v) ∈ kwargs →
      v = PyVal.none ∨ ∃ xs : List String, v = PyVal.frozenset xs)
    (hsender : lookupKw kwargs "sender" = PyVal.modelClass S)
    (hinst : lookupKw kwargs "instance" = PyVal.inst I)
    (hq : S.app_label ≠ "django_q")
    (hSreg : S ∈ w.registry) (hSdot : '.' ∉ S.model_name.data)
    (hIreg : I.cls ∈ w.registry) (hIdot : '.' ∉ I.cls.model_name.data)
    (hexists : ∃ j ∈ w.db, j.cls = I.cls ∧ j.pk = I.pk) :
    ∃ sub call i, signal_handler tp kwargs = .ok (some sub) ∧
      async_task_func w sub.sender_label sub.instance_label sub.instance_pk
        sub.kwargs = .ok call ∧
      call.sender = some S ∧ call.inst = some i ∧ i.pk = I.pk := by
  have hks : kwargsSender kwargs = some S := by
    unfold kwargsSender
    rw [hsender]
  have hki : kwargsInst kwargs = some I := by
    unfold kwargsInst
    rw [hinst]
  have hqf : senderIsDjangoQ (kwargsSender kwargs) = false := by
    rw [hks]
    simpa [senderIsDjangoQ] using hq
  obtain ⟨sk, hsk⟩ := serialize_isSome kwargs hUF
  have hsub := signal_handler_submits tp kwargs sk hqf hsk
  obtain ⟨i, hdb, hicls, hipk⟩ := dbGet_found w I.cls I.pk hexists
  have hinstrec : reconstructInstance w
      (some (I.cls.app_label ++ "." ++ I.cls.model_name)) (some I.pk) sk =
      .ok (some i, sk) := by
    rw [reconstructInstance_resolved w _ (label_ne_empty _ _) I.cls
      (resolveModel_label w I.cls hIreg hIdot) (some I.pk) sk, hdb]
  obtain ⟨kw2, hrec, _⟩ :=
    reconstruct_uf_ok sk (serialized_uf_shape kwargs sk hnd hUF hsk)
  have hasync : async_task_func w
      (some (S.app_label ++ "." ++ S.model_name))
      (some (I.cls.app_label ++ "." ++ I.cls.model_name))
      (some I.pk) sk = .ok ⟨some S, some i, kw2⟩ :=
    async_task_func_ok w _ _ _ sk (some S) (some i) sk kw2
      (reconstructSender_some w S hSreg hSdot) hinstrec hrec
  refine ⟨_, ⟨some S, some i, kw2⟩, i, hsub, ?_, rfl, rfl, hipk⟩
  show async_task_func w (_get_model_label (kwargsSender kwargs))
      (_get_instance_label (kwargsInst kwargs))
      ((kwargsInst kwargs).map (·.pk)) sk = .ok ⟨some S, some i, kw2⟩
  rw [hks, hki]
  exact hasync

/-- Witness for C1: one registered model, one row (mutated since
submission: version differs), a full post_save event. -/
theorem C1_payload_roundtrip_witness :
    (lookupKw [("signal", PyVal.signalObj 0),
        ("sender", PyVal.modelClass ⟨"app", "article"⟩),
        ("instance", PyVal.inst ⟨⟨"app", "article"⟩, 5, 0⟩),
        ("created", PyVal.bool true),
        ("update_fields", PyVal.none)] "sender" =
      PyVal.modelClass ⟨"app", "article"⟩ ∧
      (∃ j ∈ (World.mk [⟨"app", "article"⟩]
          [⟨⟨"app", "article"⟩, 5, 1⟩]).db,
        j.cls = (⟨⟨"app", "article"⟩, 5, 0⟩ : Inst).cls ∧
        j.pk = (⟨⟨"app", "article"⟩, 5, 0⟩ : Inst).pk)) ∧
    (∃ sub call i, signal_handler "m.h_task"
        [("signal", PyVal.signalObj 0),
         ("sender", PyVal.modelClass ⟨"app", "article"⟩),
         ("instance", PyVal.inst ⟨⟨"app", "article"⟩, 5, 0⟩),
         ("created", PyVal.bool true),
         ("update_fields", PyVal.none)] = .ok (some sub) ∧
      async_task_func ⟨[⟨"app", "article"⟩], [⟨⟨"app", "article"⟩, 5, 1⟩]⟩
        sub.sender_label sub.instance_label sub.instance_pk sub.kwargs =
        .ok call ∧
      call.sender = some ⟨"app", "article"⟩ ∧ call.inst = some i ∧
      i.pk = (⟨⟨"app", "article"⟩, 5, 0⟩ : Inst).pk) :=
  ⟨⟨rfl, ⟨⟨⟨"app", "article"⟩, 5, 1⟩, by simp, rfl, rfl⟩⟩,
    C1_payload_roundtrip ⟨[⟨"app", "article"⟩], [⟨⟨"app", "article"⟩, 5, 1⟩]⟩
      _ "m.h_task" ⟨"app", "article"⟩ ⟨⟨"app", "article"⟩, 5, 0⟩
      (by decide)
      (by
        intro v hv
        simp only [List.mem_cons, List.not_mem_nil, or_false,
          Prod.mk.injEq] at hv
        rcases hv with ⟨h, _⟩ | ⟨h, _⟩ | ⟨h, _⟩ | ⟨h, _⟩ | ⟨_, h⟩ <;>
          first
            | (exact absurd h (by decide))
            | (exact Or.inl h))
      rfl rfl (by decide) (by simp) (by decide) (by simp) (by decide)
      ⟨⟨⟨"app", "article"⟩, 5, 1⟩, by simp, rfl, rfl⟩⟩

/-- C7: the registrar derives the task name `<name>_task`, installs the
generated bridge under that attribute of the handler's module, and the
connected wrapper submits under the path `<module>.<name>_task`. -/
theorem C7_task_naming (mods : Modules) (f : Func) :
    (_create_async_task_wrapper mods f).2 =
      f.module ++ "." ++ f.name ++ "_task" ∧
    getModAttr (_create_async_task_wrapper mods f).1 f.module
      (f.name ++ "_task") = some f ∧
    ∀ (sig : SignalArg) (s : Nat) (kwargs : Kwargs) (sub : TaskSubmission),
      sub ∈ submissionsOfFire ((decorator sig f ⟨mods, []⟩).1).conns
        s kwargs →
      sub.task_path = f.module ++ "." ++ f.name ++ "_task" := by
  refine ⟨?_, ?_, ?_⟩
  · show task_path_of f = f.module ++ "." ++ f.name ++ "_task"
    rw [task_path_of, task_name_of]
    simp [String.append_assoc]
  · exact getModAttr_setModAttr_same mods f.module (task_name_of f) f
  · intro sig s kwargs sub hsub
    have hconns : ((decorator sig f ⟨mods, []⟩).1).conns =
        connectAll sig f [] := rfl
    rw [hconns] at hsub
    obtain ⟨c, hc, _, hcall⟩ := submissionsOfFire_mem _ s kwargs sub hsub
    rw [connectAll_snd sig f c hc] at hcall
    rw [signal_handler_path (task_path_of f) kwargs sub hcall,
      task_path_of, task_name_of]
    simp [String.append_assoc]

/-- Witness for C7: a handler named notify in module myapp.handlers. -/
theorem C7_task_naming_witness :
    ((_create_async_task_wrapper [] ⟨"myapp.handlers", "notify"⟩).2 =
      "myapp.handlers" ++ "." ++ "notify" ++ "_task" ∧
     getModAttr (_create_async_task_wrapper []
        ⟨"myapp.handlers", "notify"⟩).1 "myapp.handlers"
        ("notify" ++ "_task") = some ⟨"myapp.handlers", "notify"⟩) ∧
    ((⟨"myapp.handlers.notify_task", Option.none, Option.none, Option.none,
        [("created", PyVal.bool true)]⟩ : TaskSubmission) ∈
      submissionsOfFire ((decorator (SignalArg.single 1)
        ⟨"myapp.handlers", "notify"⟩ ⟨[], []⟩).1).conns 1
        [("created", PyVal.bool true)] ∧
     TaskSubmission.task_path ⟨"myapp.handlers.notify_task", Option.none,
        Option.none, Option.none, [("created", PyVal.bool true)]⟩ =
      "myapp.handlers" ++ "." ++ "notify" ++ "_task") :=
  ⟨⟨(C7_task_naming [] ⟨"myapp.handlers", "notify"⟩).1,
    (C7_task_naming [] ⟨"myapp.handlers", "notify"⟩).2.1⟩,
   List.mem_singleton.mpr rfl,
   (C7_task_naming [] ⟨"myapp.handlers", "notify"⟩).2.2
     (SignalArg.single 1) 1 [("created", PyVal.bool true)]
     ⟨"myapp.handlers.notify_task", Option.none, Option.none, Option.none,
       [("created", PyVal.bool true)]⟩
     (List.mem_singleton.mpr rfl)⟩

/-- C8: decorating one handler with a list of two topics connects the
same wrapper to each; one firing of either topic yields exactly one task
submission, and one firing of each yields two. -/
theorem C8_two_signals (s1 s2 : Nat) (f : Func) (kwargs : Kwargs)
    (hne : s1 ≠ s2)
    (hq : senderIsDjangoQ (kwargsSender kwargs) = false)
    (hser : ∃ sk, _serialize_signal_kwargs kwargs = some sk) :
    ((decorator (SignalArg.many [s1, s2]) f ⟨[], []⟩).1).conns =
      [(s1, f), (s2, f)] ∧
    (submissionsOfFire [(s1, f), (s2, f)] s1 kwargs).length = 1 ∧
    (submissionsOfFire [(s1, f), (s2, f)] s2 kwargs).length = 1 ∧
    (submissionsOfFire [(s1, f), (s2, f)] s1 kwargs ++
      submissionsOfFire [(s1, f), (s2, f)] s2 kwargs).length = 2 := by
  obtain ⟨sk, hsk⟩ := hser
  have hsub := signal_handler_submits (task_path_of f) kwargs sk hq hsk
  have hb1 : (s2 == s1) = false := beq_eq_false_iff_ne.mpr (Ne.symm hne)
  have hb2 : (s1 == s2) = false := beq_eq_false_iff_ne.mpr hne
  have hf1 : List.filter (fun c => c.1 == s1) [(s1, f), (s2, f)] =
      [(s1, f)] := by
    simp [List.filter, hb1]
  have hf2 : List.filter (fun c => c.1 == s2) [(s1, f), (s2, f)] =
      [(s2, f)] := by
    simp [List.filter, hb2]
  have hl1 : (submissionsOfFire [(s1, f), (s2, f)] s1 kwargs).length = 1 := by
    rw [submissionsOfFire, fireSignal, hf1]
    simp [hsub]
  have hl2 : (submissionsOfFire [(s1, f), (s2, f)] s2 kwargs).length = 1 := by
    rw [submissionsOfFire, fireSignal, hf2]
    simp [hsub]
  refine ⟨rfl, hl1, hl2, ?_⟩
  rw [List.length_append, hl1, hl2]

/-- Witness for C8: signals 1 and 2, a handler h in module m, a fully
serializable event. -/
theorem C8_two_signals_witness :
    ((1 : Nat) ≠ 2 ∧
      senderIsDjangoQ (kwargsSender [("created", PyVal.bool true)]) =
        false) ∧
    (((decorator (SignalArg.many [1, 2]) ⟨"m", "h"⟩ ⟨[], []⟩).1).conns =
        [(1, ⟨"m", "h"⟩), (2, ⟨"m", "h"⟩)] ∧
      (submissionsOfFire [(1, ⟨"m", "h"⟩), (2, ⟨"m", "h"⟩)] 1
        [("created", PyVal.bool true)]).length = 1 ∧
      (submissionsOfFire [(1, ⟨"m", "h"⟩), (2, ⟨"m", "h"⟩)] 2
        [("created", PyVal.bool true)]).length = 1 ∧
      (submissionsOfFire [(1, ⟨"m", "h"⟩), (2, ⟨"m", "h"⟩)] 1
          [("created", PyVal.bool true)] ++
        submissionsOfFire [(1, ⟨"m", "h"⟩), (2, ⟨"m", "h"⟩)] 2
          [("created", PyVal.bool true)]).length = 2) :=
  ⟨⟨by decide, rfl⟩,
    C8_two_signals 1 2 ⟨"m", "h"⟩ [("created", PyVal.bool true)]
      (by decide) rfl ⟨[("created", PyVal.bool true)], rfl⟩⟩

end DjangoQSignals
